import Mathlib

/-!
Shallow embedding of the data-access layer of the job-log repository
(file src/job_log/db.py). Tables are lists of rows, sequences are counters,
SQL timestamps are integers (one unit = one day, matching the INTERVAL
granularity used by get_activity), and CURRENT_TIMESTAMP is an explicit
`now` argument to every operation. The declared FOREIGN KEY on
events.job_id is enforced on insert, as the embedded engine (DuckDB) does;
a statement that fails raises, but statements already executed in the same
call remain applied (each statement auto-commits, no enclosing transaction).
-/

namespace JobLog

inductive JobStatus where
  | interested
  | applied
  | interviewing
  | offered
  | rejected
  | withdrawn
  | ghosted
  deriving DecidableEq, Repr

def JobStatus.value : JobStatus → String
  | .interested => "interested"
  | .applied => "applied"
  | .interviewing => "interviewing"
  | .offered => "offered"
  | .rejected => "rejected"
  | .withdrawn => "withdrawn"
  | .ghosted => "ghosted"

inductive EventType where
  | added
  | applied
  | response
  | interview
  | offer
  | rejected
  | withdrawn
  | note
  deriving DecidableEq, Repr

def EventType.value : EventType → String
  | .added => "added"
  | .applied => "applied"
  | .response => "response"
  | .interview => "interview"
  | .offer => "offer"
  | .rejected => "rejected"
  | .withdrawn => "withdrawn"
  | .note => "note"

/-- A row of the `jobs` table. `company` and `title` are NOT NULL columns,
so stored rows hold plain strings; nullable columns are `Option`. -/
structure Job where
  id : Nat
  company : String
  title : String
  posting_url : Option String
  application_url : Option String
  location : Option String
  salary : Option String
  description : Option String
  status : String
  source : String
  created_at : Int
  updated_at : Int
  deriving DecidableEq, Repr

/-- A row of the `events` table. -/
structure Event where
  id : Nat
  job_id : Nat
  event_type : String
  event_date : Int
  notes : Option String
  resume_path : Option String
  cover_letter_path : Option String
  deriving DecidableEq, Repr

/-- The database file: both tables and both ID sequences (START 1). -/
structure DB where
  jobs : List Job
  events : List Event
  jobs_id_seq : Nat
  events_id_seq : Nat
  deriving DecidableEq, Repr

def DB.empty : DB := { jobs := [], events := [], jobs_id_seq := 1, events_id_seq := 1 }

/-- Python truthiness of an `Optional[str]`: None and "" are falsy. -/
def truthy : Option String → Bool
  | none => false
  | some s => !(s == "")

/-- SELECT 1 FROM jobs WHERE id = ? — does a row with this id exist. -/
def DB.jobExists (db : DB) (job_id : Nat) : Bool :=
  db.jobs.any (fun j => j.id == job_id)

/-- INSERT INTO events: the declared FOREIGN KEY (job_id) REFERENCES jobs(id)
makes the insert fail when no such job exists. -/
def DB.insertEvent (db : DB) (e : Event) : DB × Except String Unit :=
  if db.jobExists e.job_id then
    ({ db with events := db.events ++ [e] }, Except.ok ())
  else
    (db, Except.error "foreign key constraint")

/-- Embeds `add_job`. `company`/`title` are the values bound into the SQL
(NULL is representable, the VARCHAR NOT NULL constraint rejects it). -/
def add_job (now : Int) (company title posting_url location salary description : Option String)
    (source : String) (db : DB) : DB × Except String Nat :=
  let job_id := db.jobs_id_seq
  let db1 := { db with jobs_id_seq := db.jobs_id_seq + 1 }
  if company.isSome && title.isSome then
    let job : Job :=
      { id := job_id, company := company.getD "", title := title.getD "",
        posting_url := posting_url, application_url := none, location := location,
        salary := salary, description := description,
        status := JobStatus.interested.value, source := source,
        created_at := now, updated_at := now }
    let db2 := { db1 with jobs := db1.jobs ++ [job] }
    let event_id := db2.events_id_seq
    let db3 := { db2 with events_id_seq := db2.events_id_seq + 1 }
    let e : Event :=
      { id := event_id, job_id := job_id, event_type := EventType.added.value,
        event_date := now,
        notes := some ("Added " ++ title.getD "" ++ " at " ++ company.getD ""),
        resume_path := none, cover_letter_path := none }
    let r := db3.insertEvent e
    (r.1, r.2.map (fun _ => job_id))
  else
    (db1, Except.error "NOT NULL constraint failed")

/-- Embeds `apply_to_job`: UPDATE jobs (with application_url only when truthy),
then nextval on the event sequence, then INSERT INTO events, whose event_date
is the explicit applied_date when given, else CURRENT_TIMESTAMP. -/
def apply_to_job (now : Int) (job_id : Nat)
    (resume_path cover_letter_path application_url notes : Option String)
    (applied_date : Option Int) (db : DB) : DB × Except String Unit :=
  let db1 :=
    if truthy application_url then
      { db with jobs := db.jobs.map (fun (j : Job) =>
          if j.id == job_id then
            { j with status := JobStatus.applied.value,
                     application_url := application_url, updated_at := now }
          else j) }
    else
      { db with jobs := db.jobs.map (fun (j : Job) =>
          if j.id == job_id then
            { j with status := JobStatus.applied.value, updated_at := now }
          else j) }
  let event_id := db1.events_id_seq
  let db2 := { db1 with events_id_seq := db1.events_id_seq + 1 }
  let e : Event :=
    { id := event_id, job_id := job_id, event_type := EventType.applied.value,
      event_date := match applied_date with | some d => d | none => now,
      notes := notes, resume_path := resume_path, cover_letter_path := cover_letter_path }
  db2.insertEvent e

/-- Embeds `add_response`. -/
def add_response (now : Int) (job_id : Nat) (interested : Bool) (notes : Option String)
    (db : DB) : DB × Except String Unit :=
  let new_status := if interested then JobStatus.interviewing.value else JobStatus.rejected.value
  let event_type := if interested then EventType.response.value else EventType.rejected.value
  let db1 := { db with jobs := db.jobs.map (fun (j : Job) =>
      if j.id == job_id then { j with status := new_status, updated_at := now } else j) }
  let event_id := db1.events_id_seq
  let db2 := { db1 with events_id_seq := db1.events_id_seq + 1 }
  db2.insertEvent
    { id := event_id, job_id := job_id, event_type := event_type, event_date := now,
      notes := notes, resume_path := none, cover_letter_path := none }

/-- Embeds `add_interview`. -/
def add_interview (now : Int) (job_id : Nat) (notes : Option String)
    (db : DB) : DB × Except String Unit :=
  let db1 := { db with jobs := db.jobs.map (fun (j : Job) =>
      if j.id == job_id then
        { j with status := JobStatus.interviewing.value, updated_at := now }
      else j) }
  let event_id := db1.events_id_seq
  let db2 := { db1 with events_id_seq := db1.events_id_seq + 1 }
  db2.insertEvent
    { id := event_id, job_id := job_id, event_type := EventType.interview.value,
      event_date := now, notes := notes, resume_path := none, cover_letter_path := none }

/-- The event_type_map dict of `update_status` with its `.get(status, NOTE)`
default: entries for OFFERED, REJECTED, WITHDRAWN, GHOSTED, everything else
falls through to NOTE. -/
def statusEventType : JobStatus → EventType
  | .offered => EventType.offer
  | .rejected => EventType.rejected
  | .withdrawn => EventType.withdrawn
  | .ghosted => EventType.note
  | _ => EventType.note

/-- Embeds `update_status`; `notes or f"Status changed to {status.value}"` is
Python truthiness, so None and "" both fall back to the generated text. -/
def update_status (now : Int) (job_id : Nat) (status : JobStatus) (notes : Option String)
    (db : DB) : DB × Except String Unit :=
  let db1 := { db with jobs := db.jobs.map (fun (j : Job) =>
      if j.id == job_id then { j with status := status.value, updated_at := now } else j) }
  let event_id := db1.events_id_seq
  let db2 := { db1 with events_id_seq := db1.events_id_seq + 1 }
  let noteText :=
    match notes with
    | some s => if s == "" then "Status changed to " ++ status.value else s
    | none => "Status changed to " ++ status.value
  db2.insertEvent
    { id := event_id, job_id := job_id, event_type := (statusEventType status).value,
      event_date := now, notes := some noteText,
      resume_path := none, cover_letter_path := none }

/-- Embeds `set_application_url`. -/
def set_application_url (now : Int) (job_id : Nat) (application_url : String)
    (db : DB) : DB :=
  { db with jobs := db.jobs.map (fun (j : Job) =>
      if j.id == job_id then
        { j with application_url := some application_url, updated_at := now }
      else j) }

/-- Embeds `delete_job`: existence check, then DELETE events, DELETE job. -/
def delete_job (job_id : Nat) (db : DB) : DB × Bool :=
  if db.jobExists job_id then
    ({ db with events := db.events.filter (fun (e : Event) => !(e.job_id == job_id)),
               jobs := db.jobs.filter (fun (j : Job) => !(j.id == job_id)) }, true)
  else
    (db, false)

/-- Embeds `update_applied_date`: check an applied event exists, then
UPDATE events SET event_date WHERE job_id = ? AND event_type = 'applied'. -/
def update_applied_date (job_id : Nat) (applied_date : Int) (db : DB) : DB × Bool :=
  if db.events.any (fun (e : Event) => e.job_id == job_id && e.event_type == "applied") then
    ({ db with events := db.events.map (fun (e : Event) =>
        if e.job_id == job_id && e.event_type == "applied" then
          { e with event_date := applied_date }
        else e) }, true)
  else
    (db, false)

/-- Embeds `update_job`: one UPDATE per argument that `is not None`
(plain None test, not truthiness). -/
def update_job (now : Int) (job_id : Nat) (location posting_url : Option String)
    (db : DB) : DB :=
  let db1 :=
    match location with
    | some loc => { db with jobs := db.jobs.map (fun (j : Job) =>
        if j.id == job_id then { j with location := some loc, updated_at := now } else j) }
    | none => db
  match posting_url with
  | some u => { db1 with jobs := db1.jobs.map (fun (j : Job) =>
      if j.id == job_id then { j with posting_url := some u, updated_at := now } else j) }
  | none => db1

/-- Embeds `get_job`: point lookup by id. -/
def get_job (job_id : Nat) (db : DB) : Option Job :=
  db.jobs.find? (fun j => j.id == job_id)

/-- Case folding of a string into its character list (ASCII lowering, the
approximation of ILIKE's case-insensitivity used throughout). -/
def lowerChars (s : String) : List Char :=
  s.toList.map Char.toLower

/-- SQL LIKE pattern matching over character lists: `%` matches any
(possibly empty) sequence, `_` matches exactly one character, every other
pattern character matches itself. The search text is interpolated into the
pattern unescaped by the source, so these wildcards are live. -/
def likeMatch : List Char → List Char → Bool
  | [], s => s.isEmpty
  | c :: ps, s =>
    if c == '%' then
      s.tails.any (fun s' => likeMatch ps s')
    else
      match s with
      | [] => false
      | d :: s' => (if c == '_' then true else c == d) && likeMatch ps s'

/-- `column ILIKE pattern`: LIKE matching with both sides case-folded. -/
def ilike (hay pat : String) : Bool :=
  likeMatch (lowerChars pat) (lowerChars hay)

/-- True when a pattern fragment contains neither LIKE wildcard. -/
def noWildcards (cs : List Char) : Bool :=
  cs.all (fun c => !(c == '%') && !(c == '_'))

/-- Modelled from the spec's words, for comparison with the code's ILIKE
filter: "case-insensitive substring match" of the search text. -/
def containsCI (hay pat : String) : Bool :=
  decide (lowerChars pat <:+: lowerChars hay)

/-- ORDER BY updated_at DESC as a relation on job rows. -/
def jobUpdatedGE (a b : Job) : Prop := b.updated_at ≤ a.updated_at

instance : DecidableRel jobUpdatedGE :=
  fun a b => inferInstanceAs (Decidable (b.updated_at ≤ a.updated_at))

instance : IsTotal Job jobUpdatedGE := ⟨fun a b => le_total b.updated_at a.updated_at⟩

instance : IsTrans Job jobUpdatedGE := ⟨fun _ _ _ h1 h2 => le_trans h2 h1⟩

/-- Embeds `search_jobs`: each truthy argument appends its WHERE clause
(company/title via ILIKE with % around the text, status by equality),
then ORDER BY updated_at DESC. -/
def search_jobs (company title status : Option String) (db : DB) : List Job :=
  let rows := db.jobs
  let rows := if truthy company then
      rows.filter (fun j => ilike j.company ("%" ++ company.getD "" ++ "%")) else rows
  let rows := if truthy title then
      rows.filter (fun j => ilike j.title ("%" ++ title.getD "" ++ "%")) else rows
  let rows := if truthy status then
      rows.filter (fun j => j.status == status.getD "") else rows
  List.insertionSort jobUpdatedGE rows

/-- A row of get_activity's events result: event columns joined with the
job's company and title. -/
structure ActivityEvent where
  id : Nat
  job_id : Nat
  event_type : String
  event_date : Int
  notes : Option String
  company : String
  title : String
  deriving DecidableEq, Repr

/-- A row of get_activity's jobs_added result (the projected job columns). -/
structure JobAddedRow where
  id : Nat
  company : String
  title : String
  location : Option String
  status : String
  source : String
  created_at : Int
  deriving DecidableEq, Repr

/-- Result of `get_activity`. The summary dict is an insertion-ordered
association list, as a Python dict is. -/
structure Activity where
  jobs_added : List JobAddedRow
  events : List ActivityEvent
  summary : List (String × Nat)
  deriving DecidableEq, Repr

def Job.addedRow (j : Job) : JobAddedRow :=
  { id := j.id, company := j.company, title := j.title, location := j.location,
    status := j.status, source := j.source, created_at := j.created_at }

/-- JOIN jobs j ON e.job_id = j.id for one event row (id is a primary key,
so the first match is the only one). -/
def joinEvent (jobs : List Job) (e : Event) : Option ActivityEvent :=
  (jobs.find? (fun j => j.id == e.job_id)).map (fun j =>
    { id := e.id, job_id := e.job_id, event_type := e.event_type,
      event_date := e.event_date, notes := e.notes,
      company := j.company, title := j.title })

/-- `summary[t] = summary.get(t, 0) + 1` on an insertion-ordered dict. -/
def bumpSummary (m : List (String × Nat)) (t : String) : List (String × Nat) :=
  match m with
  | [] => [(t, 1)]
  | (k, n) :: rest => if k == t then (k, n + 1) :: rest else (k, n) :: bumpSummary rest t

/-- The summary-building loop of `get_activity`. -/
def buildSummary (es : List ActivityEvent) : List (String × Nat) :=
  es.foldl (fun m e => bumpSummary m e.event_type) []

/-- ORDER BY created_at DESC on projected job rows. -/
def rowCreatedGE (a b : JobAddedRow) : Prop := b.created_at ≤ a.created_at

instance : DecidableRel rowCreatedGE :=
  fun a b => inferInstanceAs (Decidable (b.created_at ≤ a.created_at))

instance : IsTotal JobAddedRow rowCreatedGE := ⟨fun a b => le_total b.created_at a.created_at⟩

instance : IsTrans JobAddedRow rowCreatedGE := ⟨fun _ _ _ h1 h2 => le_trans h2 h1⟩

/-- ORDER BY e.event_date DESC on joined event rows. -/
def aeDateGE (a b : ActivityEvent) : Prop := b.event_date ≤ a.event_date

instance : DecidableRel aeDateGE :=
  fun a b => inferInstanceAs (Decidable (b.event_date ≤ a.event_date))

instance : IsTotal ActivityEvent aeDateGE := ⟨fun a b => le_total b.event_date a.event_date⟩

instance : IsTrans ActivityEvent aeDateGE := ⟨fun _ _ _ h1 h2 => le_trans h2 h1⟩

/-- Embeds `get_activity(days)`: jobs with created_at in the trailing window
ordered newest first, events in the window joined with their job, and the
count-by-event-type summary built from that event list. CURRENT_TIMESTAMP -
INTERVAL days DAY is `now - days` in day units. -/
def get_activity (now days : Int) (db : DB) : Activity :=
  let cutoff := now - days
  let jobs_added := List.insertionSort rowCreatedGE
    ((db.jobs.filter (fun (j : Job) => cutoff ≤ j.created_at)).map Job.addedRow)
  let evs := List.insertionSort aeDateGE
    ((db.events.filter (fun (e : Event) => cutoff ≤ e.event_date)).filterMap (joinEvent db.jobs))
  { jobs_added := jobs_added, events := evs, summary := buildSummary evs }

/-- The event columns shared by an `events` row and a joined activity row. -/
def Event.core (e : Event) : Nat × Nat × String × Int × Option String :=
  (e.id, e.job_id, e.event_type, e.event_date, e.notes)

def ActivityEvent.core (a : ActivityEvent) : Nat × Nat × String × Int × Option String :=
  (a.id, a.job_id, a.event_type, a.event_date, a.notes)

/-- `summary.get(t, 0)` on the summary dict. -/
def lookupNat (m : List (String × Nat)) (t : String) : Nat :=
  (m.lookup t).getD 0

/-- What C8 states about `get_activity now days db`: the returned jobs are
exactly those created in the trailing window (newest first), the returned
events are exactly those dated in the window — no event type excluded —
each carrying its job's company and title, newest first, and the summary
count of every event type equals the number of such events in the window. -/
def ActivitySpec (now days : Int) (db : DB) : Prop :=
  List.Perm (get_activity now days db).jobs_added
    ((db.jobs.filter (fun (j : Job) => now - days ≤ j.created_at)).map Job.addedRow) ∧
  List.Sorted rowCreatedGE (get_activity now days db).jobs_added ∧
  List.Perm ((get_activity now days db).events.map ActivityEvent.core)
    ((db.events.filter (fun (e : Event) => now - days ≤ e.event_date)).map Event.core) ∧
  (∀ ae ∈ (get_activity now days db).events,
    ∃ j ∈ db.jobs, j.id = ae.job_id ∧ ae.company = j.company ∧ ae.title = j.title) ∧
  List.Sorted aeDateGE (get_activity now days db).events ∧
  (∀ t, lookupNat (get_activity now days db).summary t =
    (db.events.filter (fun (e : Event) => now - days ≤ e.event_date)).countP
      (fun (e : Event) => e.event_type == t))

/-- One call of the Data Access API's mutating operations, with the
arguments the Python functions take (CURRENT_TIMESTAMP is supplied
separately when the operation runs). -/
inductive Op where
  | addJob (company title posting_url location salary description : Option String) (source : String)
  | applyJob (job_id : Nat) (resume_path cover_letter_path application_url notes : Option String)
      (applied_date : Option Int)
  | respond (job_id : Nat) (interested : Bool) (notes : Option String)
  | interview (job_id : Nat) (notes : Option String)
  | setStatus (job_id : Nat) (status : JobStatus) (notes : Option String)
  | setUrl (job_id : Nat) (application_url : String)
  | removeJob (job_id : Nat)
  | setAppliedDate (job_id : Nat) (applied_date : Int)
  | updateFields (job_id : Nat) (location posting_url : Option String)

/-- Run one operation at time `now`; the database state it leaves behind
(statements already executed persist even when a later statement fails). -/
def step (now : Int) (op : Op) (db : DB) : DB :=
  match op with
  | .addJob c t pu loc sal desc src => (add_job now c t pu loc sal desc src db).1
  | .applyJob i rp cp url notes ad => (apply_to_job now i rp cp url notes ad db).1
  | .respond i interested notes => (add_response now i interested notes db).1
  | .interview i notes => (add_interview now i notes db).1
  | .setStatus i status notes => (update_status now i status notes db).1
  | .setUrl i url => set_application_url now i url db
  | .removeJob i => (delete_job i db).1
  | .setAppliedDate i d => (update_applied_date i d db).1
  | .updateFields i loc pu => update_job now i loc pu db

/-- Run a trace of timestamped operations from the empty database. -/
def execTrace (tr : List (Int × Op)) : DB :=
  tr.foldl (fun db p => step p.1 p.2 db) DB.empty

/-- Membership in the status enumeration. -/
def validStatus (s : String) : Bool :=
  ["interested", "applied", "interviewing", "offered", "rejected", "withdrawn", "ghosted"].contains s

/-- Invariant carried through a trace: every job row has a status from the
enumeration and `created_at ≤ updated_at ≤ t`, `t` the clock watermark. -/
def Inv (db : DB) (t : Int) : Prop :=
  ∀ j ∈ db.jobs, validStatus j.status = true ∧ j.created_at ≤ j.updated_at ∧ j.updated_at ≤ t

/-- A one-job database used to instantiate theorems with hypotheses:
job 1 (created and last touched at time 10) with its added event and one
applied event. -/
def jobOne : Job :=
  { id := 1, company := "Acme", title := "Engineer", posting_url := none,
    application_url := some "https://apply.example", location := none, salary := none,
    description := none, status := "applied", source := "manual",
    created_at := 10, updated_at := 10 }

def dbOneJob : DB :=
  { jobs := [jobOne],
    events :=
      [{ id := 1, job_id := 1, event_type := "added", event_date := 10, notes := none,
         resume_path := none, cover_letter_path := none },
       { id := 2, job_id := 1, event_type := "applied", event_date := 12, notes := none,
         resume_path := none, cover_letter_path := none }],
    jobs_id_seq := 2, events_id_seq := 3 }

/-- A database for the activity window: job 1 created 3 days before time 100,
job 2 created 10 days before, one event inside the 7-day window and one
outside it. -/
def dbActivity : DB :=
  { jobs :=
      [{ id := 1, company := "Acme", title := "Engineer", posting_url := none,
         application_url := none, location := none, salary := none, description := none,
         status := "interested", source := "manual", created_at := 97, updated_at := 97 },
       { id := 2, company := "Globex", title := "Analyst", posting_url := none,
         application_url := none, location := none, salary := none, description := none,
         status := "applied", source := "manual", created_at := 90, updated_at := 98 }],
    events :=
      [{ id := 1, job_id := 2, event_type := "applied", event_date := 98, notes := none,
         resume_path := none, cover_letter_path := none },
       { id := 2, job_id := 2, event_type := "added", event_date := 90, notes := none,
         resume_path := none, cover_letter_path := none }],
    jobs_id_seq := 3, events_id_seq := 3 }

/-- A sample trace: add a job at time 0, mark it offered at time 1. -/
def sampleTrace : List (Int × Op) :=
  [((0 : Int), Op.addJob (some "Acme") (some "Engineer") none none none none "manual"),
   ((1 : Int), Op.setStatus 1 JobStatus.offered none)]

/-- A job whose company contains "50" but not the literal text "50%":
search text with a LIKE wildcard matches it anyway. -/
def jobC7 : Job :=
  { id := 1, company := "501 Commons", title := "Engineer", posting_url := none,
    application_url := none, location := none, salary := none, description := none,
    status := "interested", source := "manual", created_at := 0, updated_at := 0 }

def dbC7 : DB :=
  { jobs := [jobC7], events := [], jobs_id_seq := 2, events_id_seq := 1 }

lemma map_id_of_mem {α : Type} {l : List α} {f : α → α} (h : ∀ a ∈ l, f a = a) :
    l.map f = l := by
  induction l with
  | nil => rfl
  | cons a l ih =>
    simp only [List.map_cons, List.cons.injEq]
    exact ⟨h a (by simp), ih (fun b hb => h b (by simp [hb]))⟩

lemma any_map_id {l : List Job} {f : Job → Job} (h : ∀ j, (f j).id = j.id) (i : Nat) :
    (l.map f).any (fun j => j.id == i) = l.any (fun j => j.id == i) := by
  induction l with
  | nil => rfl
  | cons a l ih => simp [List.any_cons, ih, h]

lemma insertEvent_jobs (db : DB) (e : Event) : (db.insertEvent e).1.jobs = db.jobs := by
  unfold DB.insertEvent
  split <;> rfl

lemma length_filter_map_eq {α : Type} (l : List α) (f : α → α) (p : α → Bool)
    (h : ∀ a, p (f a) = p a) : ((l.map f).filter p).length = (l.filter p).length := by
  induction l with
  | nil => rfl
  | cons a l ih =>
    by_cases hp : p a = true
    · simp [List.filter_cons, h, hp, ih]
    · simp only [Bool.not_eq_true] at hp
      simp [List.filter_cons, h, hp, ih]

/-- C1: the claim says `applyToJob` on a job ID absent from the jobs table is
a silent no-op (zero rows affected, no error, state unchanged). It is not:
the event insert violates the declared foreign key, so an error is raised —
here, from the empty database. -/
theorem apply_to_job_missing_cex :
    (apply_to_job 5 1 none none none none none DB.empty).2 =
      Except.error "foreign key constraint" ∧
    (apply_to_job 5 1 none none none none none DB.empty).1.events_id_seq = 2 := by
  exact ⟨rfl, rfl⟩

/-- C1 amended: for a job ID absent from the jobs table, the UPDATE affects
zero rows and the jobs and events tables are unchanged, but the call is not
silent: the event INSERT fails the foreign-key constraint and the event ID
sequence has already been advanced. -/
theorem apply_to_job_missing_amended (now : Int) (job_id : Nat)
    (rp cp url notes : Option String) (ad : Option Int) (db : DB)
    (h : db.jobExists job_id = false) :
    (apply_to_job now job_id rp cp url notes ad db).1.jobs = db.jobs ∧
    (apply_to_job now job_id rp cp url notes ad db).1.events = db.events ∧
    (apply_to_job now job_id rp cp url notes ad db).1.events_id_seq = db.events_id_seq + 1 ∧
    (apply_to_job now job_id rp cp url notes ad db).2 =
      Except.error "foreign key constraint" := by
  unfold DB.jobExists at h
  have hmem : ∀ j ∈ db.jobs, (j.id == job_id) = false := by
    intro j hj
    have := List.any_eq_false.mp h j hj
    simpa using this
  unfold apply_to_job DB.insertEvent DB.jobExists
  by_cases hu : truthy url = true
  · have hjobs : (db.jobs.map (fun (j : Job) =>
        if j.id == job_id then
          { j with status := JobStatus.applied.value,
                   application_url := url, updated_at := now }
        else j)) = db.jobs := by
      apply map_id_of_mem
      intro j hj
      simp [hmem j hj]
    simp only [hu, if_true, hjobs]
    simp [h]
  · simp only [Bool.not_eq_true] at hu
    have hjobs : (db.jobs.map (fun (j : Job) =>
        if j.id == job_id then
          { j with status := JobStatus.applied.value, updated_at := now }
        else j)) = db.jobs := by
      apply map_id_of_mem
      intro j hj
      simp [hmem j hj]
    simp only [hu, Bool.false_eq_true, if_false, hjobs]
    simp [h]

theorem apply_to_job_missing_witness :
    DB.empty.jobExists 7 = false ∧
    (apply_to_job 3 7 none none none none none DB.empty).1.jobs = DB.empty.jobs := by
  exact ⟨by decide, (apply_to_job_missing_amended 3 7 none none none none none DB.empty
    (by decide)).1⟩

/-- C4: the claim says a call violating the non-empty requirement on
company/title fails with a constraint error. It does not: NOT NULL only
rejects NULL, and an empty-string company is accepted — the insert succeeds
and returns the new ID. -/
theorem add_job_empty_string_cex :
    (add_job 0 (some "") (some "T") none none none none "manual" DB.empty).2 =
      Except.ok 1 ∧
    (add_job 0 (some "") (some "T") none none none none "manual" DB.empty).1.jobs.length = 1 := by
  exact ⟨rfl, rfl⟩

/-- C4 amended: `addJob` enforces NOT NULL on company and title at the
storage level: a call binding NULL for either fails with a constraint error
and inserts nothing, while any call with both present (empty strings
included) inserts the Job row and returns the newly allocated integer ID. -/
theorem add_job_notnull_amended (now : Int)
    (company title pu loc sal desc : Option String) (src : String) (db : DB) :
    ((company.isSome && title.isSome) = false →
      (add_job now company title pu loc sal desc src db).2 =
        Except.error "NOT NULL constraint failed" ∧
      (add_job now company title pu loc sal desc src db).1.jobs = db.jobs ∧
      (add_job now company title pu loc sal desc src db).1.events = db.events) ∧
    (∀ c t, company = some c → title = some t →
      (add_job now company title pu loc sal desc src db).2 = Except.ok db.jobs_id_seq ∧
      ∃ j : Job, (add_job now company title pu loc sal desc src db).1.jobs = db.jobs ++ [j] ∧
        j.id = db.jobs_id_seq ∧ j.company = c ∧ j.title = t ∧ j.status = "interested") := by
  constructor
  · intro h
    unfold add_job
    rw [if_neg (by simp [h])]
    exact ⟨rfl, rfl, rfl⟩
  · intro c t hc ht
    subst hc; subst ht
    simp only [add_job, DB.insertEvent, DB.jobExists, Option.isSome_some, Bool.and_self,
      if_true, List.any_append, List.any_cons, List.any_nil, beq_self_eq_true,
      Bool.or_true, Bool.true_or, Bool.or_false]
    refine ⟨rfl, ?_⟩
    exact ⟨_, rfl, rfl, rfl, rfl, rfl⟩

theorem add_job_notnull_witness :
    ((none : Option String).isSome && (some "T" : Option String).isSome) = false ∧
    (add_job 0 none (some "T") none none none none "manual" DB.empty).2 =
      Except.error "NOT NULL constraint failed" := by
  exact ⟨by decide, ((add_job_notnull_amended 0 none (some "T") none none none none
    "manual" DB.empty).1 (by decide)).1⟩

/-- C6: `deleteJob` on an unknown ID returns false and leaves the database
untouched; on a known ID it removes the job's events and the job row,
returns true, and a subsequent `getJob` finds nothing. -/
theorem delete_job_spec (job_id : Nat) (db : DB) :
    (db.jobExists job_id = false → delete_job job_id db = (db, false)) ∧
    (db.jobExists job_id = true →
      (delete_job job_id db).2 = true ∧
      (delete_job job_id db).1.jobs = db.jobs.filter (fun (j : Job) => !(j.id == job_id)) ∧
      (delete_job job_id db).1.events =
        db.events.filter (fun (e : Event) => !(e.job_id == job_id)) ∧
      (delete_job job_id db).1.jobs_id_seq = db.jobs_id_seq ∧
      (delete_job job_id db).1.events_id_seq = db.events_id_seq ∧
      get_job job_id (delete_job job_id db).1 = none) := by
  constructor
  · intro h
    unfold delete_job
    rw [if_neg (by simp [h])]
  · intro h
    unfold delete_job
    rw [if_pos h]
    refine ⟨rfl, rfl, rfl, rfl, rfl, ?_⟩
    unfold get_job
    apply List.find?_eq_none.mpr
    intro j hj
    have := (List.mem_filter.mp hj).2
    simpa using this

theorem delete_job_witness :
    dbOneJob.jobExists 1 = true ∧ get_job 1 (delete_job 1 dbOneJob).1 = none := by
  exact ⟨by decide, ((delete_job_spec 1 dbOneJob).2 (by decide)).2.2.2.2.2⟩

/-- C2: `updateAppliedDate` returns false and changes nothing when the job
has no "applied" event; otherwise it returns true and rewrites only the
event_date of the job's "applied" events, touching no other row and leaving
the job's event count unchanged. -/
theorem update_applied_date_spec (job_id : Nat) (d : Int) (db : DB) :
    ((db.events.any (fun (e : Event) =>
        e.job_id == job_id && e.event_type == "applied")) = false →
      update_applied_date job_id d db = (db, false)) ∧
    ((db.events.any (fun (e : Event) =>
        e.job_id == job_id && e.event_type == "applied")) = true →
      (update_applied_date job_id d db).2 = true ∧
      (update_applied_date job_id d db).1.jobs = db.jobs ∧
      (update_applied_date job_id d db).1.events =
        db.events.map (fun (e : Event) =>
          if e.job_id == job_id && e.event_type == "applied" then
            { e with event_date := d }
          else e) ∧
      ((update_applied_date job_id d db).1.events.filter
          (fun (e : Event) => e.job_id == job_id)).length =
        (db.events.filter (fun (e : Event) => e.job_id == job_id)).length) := by
  constructor
  · intro h
    unfold update_applied_date
    rw [if_neg (by simp [h])]
  · intro h
    unfold update_applied_date
    rw [if_pos h]
    refine ⟨rfl, rfl, rfl, ?_⟩
    apply length_filter_map_eq
    intro e
    by_cases he : (e.job_id == job_id && e.event_type == "applied") = true
    · simp [he]
    · simp only [Bool.not_eq_true] at he
      simp [he]

theorem update_applied_date_witness :
    (dbOneJob.events.any (fun (e : Event) =>
      e.job_id == 1 && e.event_type == "applied")) = true ∧
    (update_applied_date 1 77 dbOneJob).2 = true ∧
    (update_applied_date 1 77 dbOneJob).1.jobs = dbOneJob.jobs := by
  refine ⟨by decide, ?_, ?_⟩
  · exact ((update_applied_date_spec 1 77 dbOneJob).2 (by decide)).1
  · exact ((update_applied_date_spec 1 77 dbOneJob).2 (by decide)).2.1

lemma insertEvent_of_exists (db : DB) (e : Event) (h : db.jobExists e.job_id = true) :
    db.insertEvent e = ({ db with events := db.events ++ [e] }, Except.ok ()) := by
  unfold DB.insertEvent
  rw [if_pos h]

lemma jobExists_map_update (db : DB) (tgt : Nat) (f : Job → Job)
    (hf : ∀ j, (f j).id = j.id) :
    ({ db with jobs := db.jobs.map f } : DB).jobExists tgt = db.jobExists tgt := by
  unfold DB.jobExists
  exact any_map_id hf tgt

/-- C3: the claim says every field-update call that sets one or more columns
also bumps the job's updated_at, in particular a successful
updateAppliedDate. It does not: here updateAppliedDate succeeds and rewrites
the applied event's date, yet the job row — updated_at included — is
untouched. -/
theorem update_applied_date_no_bump_cex :
    (update_applied_date 1 99 dbOneJob).2 = true ∧
    (update_applied_date 1 99 dbOneJob).1.events.map Event.event_date = [10, 99] ∧
    (update_applied_date 1 99 dbOneJob).1.jobs = dbOneJob.jobs ∧
    dbOneJob.jobs.map Job.updated_at = [10] := by
  exact ⟨rfl, rfl, rfl, rfl⟩

/-- C3 amended: `setApplicationUrl` and `updateJob` bump the updated row's
updated_at and append no Event; a successful `updateAppliedDate` also
appends no Event and sets only the applied event's date, but leaves the
jobs table — updated_at included — unchanged. -/
theorem field_updates_amended (now : Int) (i : Nat) (url : String)
    (loc pu : Option String) (d : Int) (db : DB) :
    (set_application_url now i url db).events = db.events ∧
    (∀ j ∈ (set_application_url now i url db).jobs, j.id = i → j.updated_at = now) ∧
    (update_job now i loc pu db).events = db.events ∧
    ((loc.isSome = true ∨ pu.isSome = true) →
      ∀ j ∈ (update_job now i loc pu db).jobs, j.id = i → j.updated_at = now) ∧
    (update_applied_date i d db).1.jobs = db.jobs ∧
    (update_applied_date i d db).1.events.length = db.events.length := by
  refine ⟨rfl, ?_, ?_, ?_, ?_, ?_⟩
  · intro j hj hij
    unfold set_application_url at hj
    simp only [List.mem_map] at hj
    obtain ⟨j0, _, rfl⟩ := hj
    by_cases hcase : (j0.id == i) = true
    · simp [hcase]
    · simp only [Bool.not_eq_true] at hcase
      simp only [hcase, Bool.false_eq_true, if_false] at hij ⊢
      simp [hij] at hcase
  · unfold update_job
    cases loc <;> cases pu <;> rfl
  · intro hsome j hj hij
    unfold update_job at hj
    cases hpu : pu with
    | some u =>
      rw [hpu] at hj
      simp only [List.mem_map] at hj
      obtain ⟨j1, _, rfl⟩ := hj
      by_cases hcase : (j1.id == i) = true
      · simp [hcase]
      · simp only [Bool.not_eq_true] at hcase
        simp only [hcase, Bool.false_eq_true, if_false] at hij ⊢
        simp [hij] at hcase
    | none =>
      rw [hpu] at hj
      cases hloc : loc with
      | some l =>
        rw [hloc] at hj
        simp only [List.mem_map] at hj
        obtain ⟨j1, _, rfl⟩ := hj
        by_cases hcase : (j1.id == i) = true
        · simp [hcase]
        · simp only [Bool.not_eq_true] at hcase
          simp only [hcase, Bool.false_eq_true, if_false] at hij ⊢
          simp [hij] at hcase
      | none =>
        rw [hpu, hloc] at hsome
        simp at hsome
  · unfold update_applied_date
    by_cases h : (db.events.any (fun (e : Event) =>
        e.job_id == i && e.event_type == "applied")) = true
    · rw [if_pos h]
    · rw [if_neg h]
  · unfold update_applied_date
    by_cases h : (db.events.any (fun (e : Event) =>
        e.job_id == i && e.event_type == "applied")) = true
    · rw [if_pos h]
      simp
    · rw [if_neg h]

theorem field_updates_witness :
    ((some "NYC" : Option String).isSome = true ∨ (none : Option String).isSome = true) ∧
    (∀ j ∈ (update_job 42 1 (some "NYC") none dbOneJob).jobs, j.id = 1 → j.updated_at = 42) := by
  exact ⟨Or.inl rfl,
    (field_updates_amended 42 1 "u" (some "NYC") none 0 dbOneJob).2.2.2.1 (Or.inl rfl)⟩

/-- C5: for an existing job, `updateStatus` sets the job's status to the
given value, bumps updated_at, and appends exactly one Event whose type
follows the fixed total mapping offered→offer, rejected→rejected,
withdrawn→withdrawn and note for every other status, with the
auto-generated "Status changed to {status}" text when no notes are given. -/
theorem update_status_spec (now : Int) (i : Nat) (status : JobStatus)
    (notes : Option String) (db : DB) (h : db.jobExists i = true) :
    (update_status now i status notes db).2 = Except.ok () ∧
    (update_status now i status notes db).1.jobs = db.jobs.map (fun (j : Job) =>
      if j.id == i then { j with status := status.value, updated_at := now } else j) ∧
    (update_status now i status notes db).1.events = db.events ++
      [{ id := db.events_id_seq, job_id := i,
         event_type :=
           (match status with
            | JobStatus.offered => "offer"
            | JobStatus.rejected => "rejected"
            | JobStatus.withdrawn => "withdrawn"
            | _ => "note"),
         event_date := now,
         notes := some
           (match notes with
            | some s => if s == "" then "Status changed to " ++ status.value else s
            | none => "Status changed to " ++ status.value),
         resume_path := none, cover_letter_path := none }] ∧
    (update_status now i status notes db).1.events.length = db.events.length + 1 := by
  have hex : ({ db with
      jobs := db.jobs.map (fun (j : Job) =>
        if j.id == i then { j with status := status.value, updated_at := now } else j)
      events_id_seq := db.events_id_seq + 1 } : DB).jobExists i = true := by
    have h1 : ({ db with
        jobs := db.jobs.map (fun (j : Job) =>
          if j.id == i then { j with status := status.value, updated_at := now } else j)
        events_id_seq := db.events_id_seq + 1 } : DB).jobExists i
        = ({ db with events_id_seq := db.events_id_seq + 1 } : DB).jobExists i := by
      unfold DB.jobExists
      apply any_map_id
      intro j
      by_cases hj : (j.id == i) = true <;> simp [hj]
    rw [h1]
    exact h
  simp only [update_status]
  rw [insertEvent_of_exists _ _ hex]
  refine ⟨rfl, rfl, ?_, by simp⟩
  cases status <;> rfl

theorem update_status_witness :
    dbOneJob.jobExists 1 = true ∧
    (update_status 20 1 JobStatus.offered none dbOneJob).1.events = dbOneJob.events ++
      [{ id := 3, job_id := 1, event_type := "offer", event_date := 20,
         notes := some "Status changed to offered",
         resume_path := none, cover_letter_path := none }] := by
  exact ⟨by decide,
    (update_status_spec 20 1 JobStatus.offered none dbOneJob (by decide)).2.2.1⟩

/-- C10: for an existing job, `applyToJob` with an empty-string
applicationUrl leaves the application_url column untouched (empty is falsy,
so the url-setting UPDATE variant is not taken), while status is still set
to applied, updated_at is bumped and an "applied" Event is appended. -/
theorem apply_to_job_empty_url_spec (now : Int) (i : Nat)
    (rp cp notes : Option String) (ad : Option Int) (db : DB)
    (h : db.jobExists i = true) :
    (apply_to_job now i rp cp (some "") notes ad db).2 = Except.ok () ∧
    (apply_to_job now i rp cp (some "") notes ad db).1.jobs = db.jobs.map (fun (j : Job) =>
      if j.id == i then { j with status := "applied", updated_at := now } else j) ∧
    (∀ j ∈ (apply_to_job now i rp cp (some "") notes ad db).1.jobs,
      ∃ j0 ∈ db.jobs, j.id = j0.id ∧ j.application_url = j0.application_url) ∧
    (apply_to_job now i rp cp (some "") notes ad db).1.events = db.events ++
      [{ id := db.events_id_seq, job_id := i, event_type := "applied",
         event_date := match ad with | some d => d | none => now,
         notes := notes, resume_path := rp, cover_letter_path := cp }] := by
  have hex : ({ db with
      jobs := db.jobs.map (fun (j : Job) =>
        if j.id == i then { j with status := JobStatus.applied.value, updated_at := now } else j)
      events_id_seq := db.events_id_seq + 1 } : DB).jobExists i = true := by
    have h1 : ({ db with
        jobs := db.jobs.map (fun (j : Job) =>
          if j.id == i then { j with status := JobStatus.applied.value, updated_at := now } else j)
        events_id_seq := db.events_id_seq + 1 } : DB).jobExists i
        = ({ db with events_id_seq := db.events_id_seq + 1 } : DB).jobExists i := by
      unfold DB.jobExists
      apply any_map_id
      intro j
      by_cases hj : (j.id == i) = true <;> simp [hj]
    rw [h1]
    exact h
  have htr : truthy (some "") = false := rfl
  simp only [apply_to_job, htr, Bool.false_eq_true, if_false]
  rw [insertEvent_of_exists _ _ hex]
  refine ⟨rfl, rfl, ?_, rfl⟩
  intro j hj
  simp only [List.mem_map] at hj
  obtain ⟨j0, hj0, rfl⟩ := hj
  refine ⟨j0, hj0, ?_⟩
  by_cases hcase : (j0.id == i) = true <;> simp [hcase]

theorem apply_to_job_empty_url_witness :
    dbOneJob.jobExists 1 = true ∧
    (∀ j ∈ (apply_to_job 30 1 none none (some "") none none dbOneJob).1.jobs,
      ∃ j0 ∈ dbOneJob.jobs, j.id = j0.id ∧ j.application_url = j0.application_url) := by
  exact ⟨by decide,
    (apply_to_job_empty_url_spec 30 1 none none none none dbOneJob (by decide)).2.2.1⟩

lemma likeMatch_pct (ps s : List Char) :
    likeMatch ('%' :: ps) s = true ↔ ∃ s', s' <:+ s ∧ likeMatch ps s' = true := by
  have hstep : likeMatch ('%' :: ps) s = s.tails.any (fun s' => likeMatch ps s') := rfl
  rw [hstep, List.any_eq_true]
  simp only [List.mem_tails]

lemma likeMatch_lit (cs : List Char) (s : List Char) :
    noWildcards cs = true → (likeMatch (cs ++ ['%']) s = true ↔ ∃ t, s = cs ++ t) := by
  induction cs generalizing s with
  | nil =>
    intro _
    have h1 : likeMatch ['%'] s = true :=
      (likeMatch_pct [] s).mpr ⟨[], List.nil_suffix, rfl⟩
    simp [h1]
  | cons c cs ih =>
    intro h
    simp only [noWildcards, List.all_cons, Bool.and_eq_true, Bool.not_eq_true'] at h
    obtain ⟨⟨hc1, hc2⟩, hrest⟩ := h
    cases s with
    | nil =>
      have hstep : likeMatch ((c :: cs) ++ ['%']) [] = false := by
        rw [List.cons_append, likeMatch.eq_def]
        simp [hc1]
      rw [hstep]
      simp
    | cons d s' =>
      have hstep : likeMatch ((c :: cs) ++ ['%']) (d :: s') =
          ((if c == '_' then true else c == d) && likeMatch (cs ++ ['%']) s') := by
        rw [List.cons_append, likeMatch.eq_def]
        simp [hc1]
      rw [hstep]
      have hund : (if c == '_' then true else c == d) = (c == d) := by
        simp [hc2]
      rw [hund, Bool.and_eq_true]
      constructor
      · rintro ⟨hcd, hm⟩
        obtain ⟨t, rfl⟩ := (ih s' hrest).mp hm
        simp only [beq_iff_eq] at hcd
        exact ⟨t, by rw [hcd, List.cons_append]⟩
      · rintro ⟨t, ht⟩
        rw [List.cons_append, List.cons.injEq] at ht
        obtain ⟨hdc, hs'⟩ := ht
        refine ⟨by simp [beq_iff_eq, hdc], (ih s' hrest).mpr ⟨t, hs'⟩⟩

lemma likeMatch_sub (cs s : List Char) (h : noWildcards cs = true) :
    likeMatch ('%' :: (cs ++ ['%'])) s = true ↔ cs <:+: s := by
  rw [likeMatch_pct]
  constructor
  · rintro ⟨s', hsuf, hm⟩
    obtain ⟨t, rfl⟩ := (likeMatch_lit cs s' h).mp hm
    exact List.infix_iff_prefix_suffix.mpr ⟨cs ++ t, ⟨t, rfl⟩, hsuf⟩
  · intro hinf
    obtain ⟨t2, hpre, hsuf⟩ := List.infix_iff_prefix_suffix.mp hinf
    obtain ⟨r, rfl⟩ := hpre
    exact ⟨cs ++ r, hsuf, (likeMatch_lit cs (cs ++ r) h).mpr ⟨r, rfl⟩⟩

lemma lowerChars_append (a b : String) :
    lowerChars (a ++ b) = lowerChars a ++ lowerChars b := by
  simp [lowerChars, String.toList, String.data_append]

lemma ilike_eq_containsCI (hay text : String)
    (h : noWildcards (lowerChars text) = true) :
    ilike hay ("%" ++ text ++ "%") = containsCI hay text := by
  unfold ilike containsCI
  rw [lowerChars_append, lowerChars_append]
  have hp : lowerChars "%" = ['%'] := by decide
  rw [hp]
  have hshape : (['%'] ++ lowerChars text) ++ ['%'] = '%' :: (lowerChars text ++ ['%']) := by
    simp
  rw [hshape, Bool.eq_iff_iff]
  simp only [decide_eq_true_eq]
  exact likeMatch_sub _ _ h

/-- C7: the claim says `searchJobs` filters by case-insensitive SUBSTRING
match on the search text. The text is interpolated into the LIKE pattern
unescaped, so `%` in it acts as a wildcard: searching company "50%" returns
a job whose company contains "50" but no literal "50%" substring. -/
theorem search_jobs_wildcard_cex :
    search_jobs (some "50%") none none dbC7 = [jobC7] ∧
    containsCI jobC7.company "50%" = false := by
  exact ⟨by decide, by decide⟩

/-- C7 amended: with at most one of the two field filters supplied per call
(the convention the caller follows), `searchJobs` returns exactly the jobs
whose filtered field matches the case-insensitive LIKE pattern %text% —
`%` and `_` in the search text act as wildcards — plus the exact status
filter when supplied, ordered by updated_at descending; for search text
free of wildcards the field filter is exactly the claimed case-insensitive
substring match. -/
theorem search_jobs_like_spec (company title status : Option String) (db : DB)
    (hone : truthy company = false ∨ truthy title = false) :
    (∀ j : Job, j ∈ search_jobs company title status db ↔
      (j ∈ db.jobs ∧
       (truthy company = true → ilike j.company ("%" ++ company.getD "" ++ "%") = true) ∧
       (truthy title = true → ilike j.title ("%" ++ title.getD "" ++ "%") = true) ∧
       (truthy status = true → j.status = status.getD ""))) ∧
    List.Sorted jobUpdatedGE (search_jobs company title status db) ∧
    (∀ hay text : String, noWildcards (lowerChars text) = true →
      ilike hay ("%" ++ text ++ "%") = containsCI hay text) := by
  refine ⟨?_, ?_, ?_⟩
  · intro j
    simp only [search_jobs, List.mem_insertionSort]
    by_cases hc : truthy company = true <;> by_cases ht : truthy title = true <;>
      by_cases hs : truthy status = true <;>
      simp [hc, ht, hs, List.mem_filter, and_assoc, beq_iff_eq] <;>
      tauto
  · exact List.sorted_insertionSort _ _
  · exact fun hay text h => ilike_eq_containsCI hay text h

theorem search_jobs_like_witness :
    (truthy (some "acme") = false ∨ truthy (none : Option String) = false) ∧
    (jobOne ∈ search_jobs (some "acme") none none dbOneJob ↔
      (jobOne ∈ dbOneJob.jobs ∧
       (truthy (some "acme") = true → ilike jobOne.company ("%" ++ "acme" ++ "%") = true) ∧
       (truthy (none : Option String) = true → ilike jobOne.title ("%" ++ "" ++ "%") = true) ∧
       (truthy (none : Option String) = true → jobOne.status = ""))) := by
  exact ⟨Or.inr rfl,
    (search_jobs_like_spec (some "acme") none none dbOneJob (Or.inr rfl)).1 jobOne⟩

lemma joined_core (jobs : List Job) (l : List Event)
    (h : ∀ e ∈ l, ∃ j ∈ jobs, j.id = e.job_id) :
    (l.filterMap (joinEvent jobs)).map ActivityEvent.core = l.map Event.core := by
  induction l with
  | nil => rfl
  | cons e es ih =>
    have hfind : (jobs.find? (fun j => j.id == e.job_id)).isSome := by
      rw [List.find?_isSome]
      obtain ⟨j, hj, hid⟩ := h e (by simp)
      exact ⟨j, hj, by simp [hid]⟩
    obtain ⟨j, hj⟩ := Option.isSome_iff_exists.mp hfind
    have ihe := ih (fun x hx => h x (List.mem_cons_of_mem _ hx))
    simp only [List.filterMap_cons, joinEvent, hj, Option.map_some', List.map_cons, ihe]
    rfl

lemma lookupNat_nil (t : String) : lookupNat [] t = 0 := rfl

lemma lookupNat_cons (k : String) (n : Nat) (rest : List (String × Nat)) (t : String) :
    lookupNat ((k, n) :: rest) t = if (t == k) = true then n else lookupNat rest t := by
  by_cases h : (t == k) = true
  · simp [lookupNat, List.lookup, h]
  · simp only [Bool.not_eq_true] at h
    simp [lookupNat, List.lookup, h]

lemma lookupNat_bump_eq (m : List (String × Nat)) (t : String) :
    lookupNat (bumpSummary m t) t = lookupNat m t + 1 := by
  induction m with
  | nil =>
    show lookupNat [(t, 1)] t = lookupNat [] t + 1
    rw [lookupNat_cons, lookupNat_nil]
    simp
  | cons kv rest ih =>
    obtain ⟨k, n⟩ := kv
    by_cases hk : (k == t) = true
    · have hn : bumpSummary ((k, n) :: rest) t = (k, n + 1) :: rest := by
        simp [bumpSummary, hk]
      rw [hn, lookupNat_cons, lookupNat_cons]
      simp only [beq_iff_eq] at hk
      subst hk
      simp
    · have hn : bumpSummary ((k, n) :: rest) t = (k, n) :: bumpSummary rest t := by
        simp [bumpSummary, hk]
      rw [hn, lookupNat_cons, lookupNat_cons]
      by_cases htk : (t == k) = true
      · simp only [beq_iff_eq] at htk hk
        exact absurd htk.symm hk
      · simp [htk, ih]

lemma lookupNat_bump_ne (m : List (String × Nat)) {t u : String} (h : ¬ u = t) :
    lookupNat (bumpSummary m u) t = lookupNat m t := by
  have htu : (t == u) = false := beq_eq_false_iff_ne.mpr (Ne.symm h)
  induction m with
  | nil =>
    show lookupNat [(u, 1)] t = lookupNat [] t
    rw [lookupNat_cons, lookupNat_nil]
    simp [htu]
  | cons kv rest ih =>
    obtain ⟨k, n⟩ := kv
    by_cases hk : (k == u) = true
    · have hn : bumpSummary ((k, n) :: rest) u = (k, n + 1) :: rest := by
        simp [bumpSummary, hk]
      simp only [beq_iff_eq] at hk
      subst hk
      rw [hn, lookupNat_cons, lookupNat_cons]
      simp [htu]
    · have hn : bumpSummary ((k, n) :: rest) u = (k, n) :: bumpSummary rest u := by
        simp [bumpSummary, hk]
      rw [hn, lookupNat_cons, lookupNat_cons]
      by_cases htk : (t == k) = true
      · simp [htk]
      · simp [htk, ih]

lemma foldl_bump (es : List ActivityEvent) (m : List (String × Nat)) (t : String) :
    lookupNat (es.foldl (fun acc e => bumpSummary acc e.event_type) m) t
      = lookupNat m t + es.countP (fun e => e.event_type == t) := by
  induction es generalizing m with
  | nil => simp
  | cons e es ih =>
    simp only [List.foldl_cons, List.countP_cons]
    by_cases he : e.event_type = t
    · rw [ih, he, lookupNat_bump_eq]
      simp [he]
      omega
    · rw [ih, lookupNat_bump_ne _ he]
      simp [he]

lemma lookupNat_buildSummary (es : List ActivityEvent) (t : String) :
    lookupNat (buildSummary es) t = es.countP (fun e => e.event_type == t) := by
  unfold buildSummary
  rw [foldl_bump]
  simp [lookupNat]

/-- C8: `getActivity(days)` returns exactly the jobs created at or after
now - days (newest first), exactly the events dated at or after now - days —
excluding none by type — each joined with its job's company and title
(newest first), and a summary whose count for each event type equals the
number of such events in the window. The foreign key guarantees the
hypothesis that every event's job exists. -/
theorem get_activity_spec (now days : Int) (db : DB)
    (hfk : ∀ e ∈ db.events, ∃ j ∈ db.jobs, j.id = e.job_id) :
    ActivitySpec now days db := by
  have hcore := joined_core db.jobs
    (db.events.filter (fun (e : Event) => now - days ≤ e.event_date))
    (fun e he => hfk e (List.mem_of_mem_filter he))
  have hperm := List.perm_insertionSort aeDateGE
    ((db.events.filter (fun (e : Event) => now - days ≤ e.event_date)).filterMap
      (joinEvent db.jobs))
  refine ⟨?_, ?_, ?_, ?_, ?_, ?_⟩
  · exact List.perm_insertionSort _ _
  · exact List.sorted_insertionSort _ _
  · exact hcore ▸ (hperm.map ActivityEvent.core)
  · intro ae hae
    simp only [get_activity, List.mem_insertionSort] at hae
    obtain ⟨e, _, hj⟩ := List.mem_filterMap.mp hae
    unfold joinEvent at hj
    obtain ⟨j, hfind, rfl⟩ := Option.map_eq_some'.mp hj
    refine ⟨j, List.mem_of_find?_eq_some hfind, ?_, rfl, rfl⟩
    have hb := List.find?_some hfind
    simp only [beq_iff_eq] at hb
    exact hb
  · exact List.sorted_insertionSort _ _
  · intro t
    show lookupNat (buildSummary _) t = _
    rw [lookupNat_buildSummary, hperm.countP_eq]
    have hcnt : ((db.events.filter (fun (e : Event) =>
          now - days ≤ e.event_date)).filterMap (joinEvent db.jobs)).map
          ActivityEvent.core
        = (db.events.filter (fun (e : Event) => now - days ≤ e.event_date)).map
          Event.core := hcore
    have h2 := congrArg (fun l => l.countP
      (fun c : Nat × Nat × String × Int × Option String => c.2.2.1 == t)) hcnt
    simpa only [List.countP_map] using h2

theorem get_activity_witness :
    (∀ e ∈ dbActivity.events, ∃ j ∈ dbActivity.jobs, j.id = e.job_id) ∧
    ActivitySpec 100 7 dbActivity := by
  exact ⟨by decide, get_activity_spec 100 7 dbActivity (by decide)⟩

lemma validStatus_value (s : JobStatus) : validStatus s.value = true := by
  cases s <;> decide

lemma inv_weaken {db : DB} {t t' : Int} (h : Inv db t) (ht : t ≤ t') : Inv db t' := by
  intro j hj
  obtain ⟨h1, h2, h3⟩ := h j hj
  exact ⟨h1, h2, le_trans h3 ht⟩

lemma inv_map_rowupdate {db : DB} {t t' : Int} (ht : t ≤ t') (h : Inv db t) (i : Nat)
    (g : Job → Job)
    (hgs : ∀ j, validStatus j.status = true → validStatus (g j).status = true)
    (hgc : ∀ j, (g j).created_at = j.created_at)
    (hgu : ∀ j, (g j).updated_at = t') :
    ∀ j ∈ db.jobs.map (fun (j : Job) => if j.id == i then g j else j),
      validStatus j.status = true ∧ j.created_at ≤ j.updated_at ∧ j.updated_at ≤ t' := by
  intro j hj
  obtain ⟨j0, hj0, rfl⟩ := List.mem_map.mp hj
  obtain ⟨h1, h2, h3⟩ := h j0 hj0
  by_cases hc : (j0.id == i) = true
  · simp only [hc, if_true]
    refine ⟨hgs j0 h1, ?_, ?_⟩
    · rw [hgc, hgu]
      exact le_trans (le_trans h2 h3) ht
    · rw [hgu]
  · simp only [Bool.not_eq_true] at hc
    simp only [hc, Bool.false_eq_true, if_false]
    exact ⟨h1, h2, le_trans h3 ht⟩

lemma step_inv (op : Op) (t t' : Int) (ht : t ≤ t') (db : DB) (h : Inv db t) :
    Inv (step t' op db) t' := by
  cases op with
  | addJob c ti pu loc sal desc src =>
    simp only [step, add_job]
    by_cases hcond : (c.isSome && ti.isSome) = true
    · simp only [hcond, if_true]
      intro j hj
      rw [insertEvent_jobs] at hj
      simp only [List.mem_append, List.mem_singleton] at hj
      rcases hj with hj | rfl
      · obtain ⟨h1, h2, h3⟩ := h j hj
        exact ⟨h1, h2, le_trans h3 ht⟩
      · refine ⟨?_, le_refl _, le_refl _⟩
        exact validStatus_value JobStatus.interested
    · simp only [hcond, Bool.false_eq_true, if_false]
      exact fun j hj => inv_weaken h ht j hj
  | applyJob i rp cp url notes ad =>
    simp only [step, apply_to_job]
    by_cases hu : truthy url = true
    · simp only [hu, if_true]
      intro j hj
      rw [insertEvent_jobs] at hj
      exact inv_map_rowupdate ht h i
        (fun j0 => { j0 with
          status := JobStatus.applied.value
          application_url := url
          updated_at := t' })
        (fun j0 _ => validStatus_value JobStatus.applied)
        (fun j0 => rfl) (fun j0 => rfl) j hj
    · simp only [Bool.not_eq_true] at hu
      simp only [hu, Bool.false_eq_true, if_false]
      intro j hj
      rw [insertEvent_jobs] at hj
      exact inv_map_rowupdate ht h i
        (fun j0 => { j0 with status := JobStatus.applied.value, updated_at := t' })
        (fun j0 _ => validStatus_value JobStatus.applied)
        (fun j0 => rfl) (fun j0 => rfl) j hj
  | respond i interested notes =>
    simp only [step, add_response]
    intro j hj
    rw [insertEvent_jobs] at hj
    cases interested with
    | true =>
      exact inv_map_rowupdate ht h i
        (fun j0 => { j0 with status := JobStatus.interviewing.value, updated_at := t' })
        (fun j0 _ => validStatus_value JobStatus.interviewing)
        (fun j0 => rfl) (fun j0 => rfl) j hj
    | false =>
      exact inv_map_rowupdate ht h i
        (fun j0 => { j0 with status := JobStatus.rejected.value, updated_at := t' })
        (fun j0 _ => validStatus_value JobStatus.rejected)
        (fun j0 => rfl) (fun j0 => rfl) j hj
  | interview i notes =>
    simp only [step, add_interview]
    intro j hj
    rw [insertEvent_jobs] at hj
    exact inv_map_rowupdate ht h i
      (fun j0 => { j0 with status := JobStatus.interviewing.value, updated_at := t' })
      (fun j0 _ => validStatus_value JobStatus.interviewing)
      (fun j0 => rfl) (fun j0 => rfl) j hj
  | setStatus i s notes =>
    simp only [step, update_status]
    intro j hj
    rw [insertEvent_jobs] at hj
    exact inv_map_rowupdate ht h i
      (fun j0 => { j0 with status := s.value, updated_at := t' })
      (fun j0 _ => validStatus_value s)
      (fun j0 => rfl) (fun j0 => rfl) j hj
  | setUrl i url =>
    simp only [step, set_application_url]
    intro j hj
    exact inv_map_rowupdate ht h i
      (fun j0 => { j0 with application_url := some url, updated_at := t' })
      (fun j0 h1 => h1)
      (fun j0 => rfl) (fun j0 => rfl) j hj
  | removeJob i =>
    simp only [step, delete_job]
    by_cases hc : db.jobExists i = true
    · rw [if_pos hc]
      intro j hj
      exact inv_weaken h ht j (List.mem_of_mem_filter hj)
    · rw [if_neg hc]
      exact inv_weaken h ht
  | setAppliedDate i d =>
    simp only [step, update_applied_date]
    by_cases hc : (db.events.any (fun (e : Event) =>
        e.job_id == i && e.event_type == "applied")) = true
    · rw [if_pos hc]
      exact inv_weaken h ht
    · rw [if_neg hc]
      exact inv_weaken h ht
  | updateFields i loc pu =>
    simp only [step, update_job]
    cases loc with
    | none =>
      cases pu with
      | none => exact inv_weaken h ht
      | some u =>
        intro j hj
        exact inv_map_rowupdate ht h i
          (fun j0 => { j0 with posting_url := some u, updated_at := t' })
          (fun j0 h1 => h1) (fun j0 => rfl) (fun j0 => rfl) j hj
    | some l =>
      have hmid : Inv { db with jobs := db.jobs.map (fun (j : Job) =>
          if j.id == i then { j with location := some l, updated_at := t' } else j) } t' := by
        intro j hj
        exact inv_map_rowupdate ht h i
          (fun j0 => { j0 with location := some l, updated_at := t' })
          (fun j0 h1 => h1) (fun j0 => rfl) (fun j0 => rfl) j hj
      cases pu with
      | none => exact hmid
      | some u =>
        intro j hj
        exact inv_map_rowupdate (le_refl t') hmid i
          (fun j0 => { j0 with posting_url := some u, updated_at := t' })
          (fun j0 h1 => h1) (fun j0 => rfl) (fun j0 => rfl) j hj

lemma exec_inv (tr : List (Int × Op)) (db : DB) (t : Int) (h : Inv db t)
    (hch : List.Chain' (fun a b : Int => a ≤ b) (t :: tr.map Prod.fst)) :
    ∀ j ∈ (tr.foldl (fun db p => step p.1 p.2 db) db).jobs,
      validStatus j.status = true ∧ j.created_at ≤ j.updated_at := by
  induction tr generalizing db t with
  | nil =>
    intro j hj
    obtain ⟨h1, h2, _⟩ := h j hj
    exact ⟨h1, h2⟩
  | cons p rest ih =>
    obtain ⟨t1, op⟩ := p
    simp only [List.map_cons, List.chain'_cons] at hch
    obtain ⟨ht, hch2⟩ := hch
    simp only [List.foldl_cons]
    exact ih (step t1 op db) t1 (step_inv op t t1 ht db h) hch2

/-- C9: after any sequence of the defined operations executed at
nondecreasing clock readings, every job row satisfies
created_at ≤ updated_at and carries a status from the defined
enumeration. -/
theorem job_invariant_trace (tr : List (Int × Op))
    (hch : List.Chain' (fun a b : Int => a ≤ b) (tr.map Prod.fst)) :
    ∀ j ∈ (execTrace tr).jobs,
      validStatus j.status = true ∧ j.created_at ≤ j.updated_at := by
  cases tr with
  | nil =>
    intro j hj
    simp [execTrace, DB.empty] at hj
  | cons p rest =>
    obtain ⟨t1, op⟩ := p
    have h0 : Inv DB.empty t1 := by
      intro j hj
      simp [DB.empty] at hj
    unfold execTrace
    apply exec_inv ((t1, op) :: rest) DB.empty t1 h0
    simp only [List.map_cons] at hch ⊢
    exact List.chain'_cons.mpr ⟨le_refl t1, hch⟩

theorem job_invariant_witness :
    List.Chain' (fun a b : Int => a ≤ b) (sampleTrace.map Prod.fst) ∧
    (∀ j ∈ (execTrace sampleTrace).jobs,
      validStatus j.status = true ∧ j.created_at ≤ j.updated_at) := by
  have hch : List.Chain' (fun a b : Int => a ≤ b) (sampleTrace.map Prod.fst) := by
    simp only [sampleTrace, List.map_cons, List.map_nil, List.chain'_cons]
    exact ⟨by norm_num, List.chain'_singleton _⟩
  exact ⟨hch, job_invariant_trace sampleTrace hch⟩

end JobLog
